import Mathlib

set_option maxRecDepth 4000

/-!
Shallow embedding of the fxcode (FxDK) repository pieces that the
verified properties are about:

* the static/WebSocket HTTP server of src/unnamed/part_001
  (serveFile, serveError, the request handler and the upgrade handler
  inside startServer);
* the game-view web component of src/unnamed/part_003
  (mapMouseButton, mapKey, the keydown handler and _resetStates);
* the local-storage credentials provider of
  src/src/vs/fxdk/browser/workbench/workbench.ts.

Node's posix path module, decodeURIComponent, querystring parsing,
SHA-1 and base64 are embedded as executable Lean functions so that the
server code can be translated verbatim.  String manipulation is done on
character lists (structural recursion) so every definition evaluates
inside the kernel.
-/

/-! ## Character-list string utilities -/

/-- Split a character list at every occurrence of the separator
(String.prototype.split with a single-character separator). -/
def splitOnChar (sep : Char) : List Char → List (List Char)
  | [] => [[]]
  | c :: rest =>
    let r := splitOnChar sep rest
    if c = sep then [] :: r
    else
      match r with
      | [] => [[c]]
      | seg :: segs => (c :: seg) :: segs

/-- Split at the first occurrence of the separator; when the separator
is absent the second component is empty. -/
def splitAtFirst (sep : Char) : List Char → List Char × List Char
  | [] => ([], [])
  | c :: rest =>
    if c = sep then ([], rest)
    else
      let kv := splitAtFirst sep rest
      (c :: kv.1, kv.2)

/-- Join character-list segments with a separator character. -/
def intercalateChar (sep : Char) : List (List Char) → List Char
  | [] => []
  | [seg] => seg
  | seg :: rest => seg ++ sep :: intercalateChar sep rest

/-- Whether the haystack contains the needle as a contiguous
subsequence (String.prototype.indexOf !== -1). -/
def listContainsSub : List Char → List Char → Bool
  | l, pat =>
    match l with
    | [] => pat.isEmpty
    | _ :: rest => pat.isPrefixOf l || listContainsSub rest pat

/-- String.prototype.startsWith. -/
def strStartsWith (s pre : String) : Bool :=
  pre.toList.isPrefixOf s.toList

/-- Lowercase a string (String.prototype.toLowerCase for ASCII). -/
def strToLower (s : String) : String :=
  String.mk (s.toList.map Char.toLower)

/-! ## Percent decoding (JS decodeURIComponent) -/

/-- Value of a hexadecimal digit, as accepted by a percent escape. -/
def hexDigitVal (c : Char) : Option Nat :=
  if '0' ≤ c ∧ c ≤ '9' then some (c.toNat - '0'.toNat)
  else if 'a' ≤ c ∧ c ≤ 'f' then some (c.toNat - 'a'.toNat + 10)
  else if 'A' ≤ c ∧ c ≤ 'F' then some (c.toNat - 'A'.toNat + 10)
  else none

/-- UTF-8 encoding of a single code point, as a list of byte values. -/
def utf8EncodeCharNat (n : Nat) : List Nat :=
  if n < 128 then [n]
  else if n < 2048 then [192 ||| (n >>> 6), 128 ||| (n &&& 63)]
  else if n < 65536 then
    [224 ||| (n >>> 12), 128 ||| ((n >>> 6) &&& 63), 128 ||| (n &&& 63)]
  else
    [240 ||| (n >>> 18), 128 ||| ((n >>> 12) &&& 63),
     128 ||| ((n >>> 6) &&& 63), 128 ||| (n &&& 63)]

/-- UTF-8 encoding of a string as a list of byte values. -/
def utf8Bytes (s : String) : List Nat :=
  (s.toList.map (fun c => utf8EncodeCharNat c.toNat)).flatten

/-- Strict UTF-8 decoder (rejects overlong forms, surrogates and stray
continuation bytes), the validation decodeURIComponent performs on the
bytes denoted by percent escapes. -/
def utf8DecodeChars : List Nat → Option (List Char)
  | [] => some []
  | b :: rest =>
    if b < 128 then (utf8DecodeChars rest).map (fun cs => Char.ofNat b :: cs)
    else if b < 194 then none
    else if b < 224 then
      match rest with
      | b1 :: rest2 =>
        if 128 ≤ b1 ∧ b1 < 192 then
          (utf8DecodeChars rest2).map
            (fun cs => Char.ofNat ((b - 192) * 64 + (b1 - 128)) :: cs)
        else none
      | [] => none
    else if b < 240 then
      match rest with
      | b1 :: b2 :: rest3 =>
        if (128 ≤ b1 ∧ b1 < 192) ∧ (128 ≤ b2 ∧ b2 < 192)
            ∧ (b = 224 → 160 ≤ b1) ∧ (b = 237 → b1 < 160) then
          (utf8DecodeChars rest3).map
            (fun cs => Char.ofNat ((b - 224) * 4096 + (b1 - 128) * 64 + (b2 - 128)) :: cs)
        else none
      | _ => none
    else if b < 245 then
      match rest with
      | b1 :: b2 :: b3 :: rest4 =>
        if (128 ≤ b1 ∧ b1 < 192) ∧ (128 ≤ b2 ∧ b2 < 192) ∧ (128 ≤ b3 ∧ b3 < 192)
            ∧ (b = 240 → 144 ≤ b1) ∧ (b = 244 → b1 < 144) then
          (utf8DecodeChars rest4).map
            (fun cs => Char.ofNat ((b - 240) * 262144 + (b1 - 128) * 4096
                                   + (b2 - 128) * 64 + (b3 - 128)) :: cs)
        else none
      | _ => none
    else none

/-- Tokenize a character list: a percent escape becomes the byte it
denotes (inr), any other character stays literal (inl).  A malformed
escape (missing or non-hex digits) is a decode error, matching the
URIError decodeURIComponent throws. -/
def percentTokens : List Char → Option (List (Sum Char Nat))
  | [] => some []
  | '%' :: h1 :: h2 :: rest =>
    match hexDigitVal h1, hexDigitVal h2 with
    | some a, some b => (percentTokens rest).map (fun ts => Sum.inr (16 * a + b) :: ts)
    | _, _ => none
  | c :: rest =>
    if c = '%' then none
    else (percentTokens rest).map (fun ts => Sum.inl c :: ts)

/-- JS decodeURIComponent: percent escapes are decoded to bytes, which
must form valid UTF-8; a malformed escape or invalid byte sequence is an
error (none), which the server's try/catch turns into a 500 response.
Literal characters always contribute complete UTF-8 sequences of their
own (no byte of a literal character can continue an escaped lead byte),
so decoding the fused byte stream is equivalent to the per-escape-run
decoding the ECMAScript specification performs. -/
def decodeURIComponent (s : String) : Option String :=
  (percentTokens s.toList).bind fun toks =>
    (utf8DecodeChars ((toks.map (fun t =>
        match t with
        | Sum.inl c => utf8EncodeCharNat c.toNat
        | Sum.inr b => [b])).flatten)).map String.mk

/-! ## Node posix path: normalize / join / extname -/

/-- Node's normalizeString segment resolution: drops "." segments, a
".." pops the previous real segment, and above-root ".." segments are
kept for relative paths (allowAboveRoot) but dropped for absolute ones. -/
def normSegs (allowAboveRoot : Bool) (acc : List (List Char)) :
    List (List Char) → List (List Char)
  | [] => acc.reverse
  | seg :: rest =>
    if seg = ['.'] then normSegs allowAboveRoot acc rest
    else if seg = ['.', '.'] then
      match acc with
      | top :: acc2 =>
        if top ≠ ['.', '.'] then normSegs allowAboveRoot acc2 rest
        else if allowAboveRoot then normSegs allowAboveRoot (['.', '.'] :: top :: acc2) rest
        else normSegs allowAboveRoot (top :: acc2) rest
      | [] =>
        if allowAboveRoot then normSegs allowAboveRoot [['.', '.']] rest
        else normSegs allowAboveRoot [] rest
    else normSegs allowAboveRoot (seg :: acc) rest

/-- Node path.posix.normalize, on a character list. -/
def posixNormalizeCs (cs : List Char) : List Char :=
  if cs = [] then ['.']
  else
    let isAbs : Bool := cs.head? = some '/'
    let trailing : Bool := cs.getLast? = some '/'
    let segs := (splitOnChar '/' cs).filter (fun s => ¬ s.isEmpty)
    let body := intercalateChar '/' (normSegs (!isAbs) [] segs)
    if body = [] then
      if isAbs then ['/'] else if trailing then ['.', '/'] else ['.']
    else
      (if isAbs then '/' :: body else body) ++ (if trailing then ['/'] else [])

/-- Node path.posix.normalize. -/
def posixNormalize (p : String) : String :=
  String.mk (posixNormalizeCs p.toList)

/-- Node path.posix.join on two arguments: concatenate with "/" and
normalize (empty arguments are skipped). -/
def pathJoin (a b : String) : String :=
  if a = "" ∧ b = "" then "."
  else if a = "" then posixNormalize b
  else if b = "" then posixNormalize a
  else posixNormalize (a ++ "/" ++ b)

/-- Index of the last '.' in a character list. -/
def lastDotIdx (cs : List Char) : Option Nat :=
  ((cs.enum.filter (fun p => p.2 = '.')).getLast?).map (fun p => p.1)

/-- Node path.posix.extname: the basename's suffix from its last dot;
empty when there is no dot, the dot is the basename's first character,
or the basename is exactly "..". -/
def extname (p : String) : String :=
  let bn := (splitOnChar '/' p.toList).getLastD []
  match lastDotIdx bn with
  | none => ""
  | some i => if i = 0 ∨ bn = ['.', '.'] then "" else String.mk (bn.drop i)

/-! ## Server: mime tables and serveFile (src/unnamed/part_001 lines 18-79) -/

def textMimeType : List (String × String) :=
  [(".html", "text/html"), (".js", "text/javascript"), (".json", "application/json"),
   (".css", "text/css"), (".svg", "image/svg+xml")]

def mapExtToMediaMimes : List (String × String) :=
  [(".bmp", "image/bmp"), (".gif", "image/gif"), (".ico", "image/x-icon"),
   (".jpe", "image/jpg"), (".jpeg", "image/jpg"), (".jpg", "image/jpg"),
   (".png", "image/png"), (".tga", "image/x-tga"), (".tif", "image/tiff"),
   (".tiff", "image/tiff"), (".woff", "application/font-woff")]

/-- Map.get on an association list. -/
def mapLookup (m : List (String × String)) (k : String) : Option String :=
  (m.find? (fun p => p.1 = k)).map (fun p => p.2)

/-- getMediaMime of the server source. -/
def getMediaMime (forPath : String) : Option String :=
  mapLookup mapExtToMediaMimes (strToLower (extname forPath))

/-- Content type chosen by serveFile:
textMimeType.get(extname) or getMediaMime or text/plain. -/
def contentTypeOf (filePath : String) : String :=
  match mapLookup textMimeType (extname filePath) with
  | some m => m
  | none =>
    match getMediaMime filePath with
    | some m => m
    | none => "text/plain"

/-- Result of fs.promises.stat together with the file contents the
read stream would deliver; mtimeMs is stat.mtime.getTime(), the
modification time in integer milliseconds. -/
structure FileStat where
  ino : Nat
  size : Nat
  mtimeMs : Nat
  content : String
deriving DecidableEq

/-- The file system visible to the server: a stat result per path,
none meaning stat throws (file absent). -/
abbrev FS := String → Option FileStat

/-- An HTTP response as the handler writes it: status code, headers in
writeHead order, body. -/
structure Response where
  status : Nat
  headers : List (String × String)
  body : String
deriving DecidableEq

/-- The weak validator serveFile builds from the stat:
W/"ino-size-mtime". -/
def mkEtag (st : FileStat) : String :=
  "W/\"" ++ toString st.ino ++ "-" ++ toString st.size ++ "-" ++ toString st.mtimeMs ++ "\""

/-- JS object property assignment on a header record. -/
def setHeader (hs : List (String × String)) (k v : String) : List (String × String) :=
  if hs.any (fun p => p.1 = k) then hs.map (fun p => if p.1 = k then (k, v) else p)
  else hs ++ [(k, v)]

/-- serveFile (src/unnamed/part_001 lines 46-74): normalize the path,
stat it (any failure is caught and answered with 404 "Not found"),
answer 304 with an empty body when the If-None-Match request header
equals the weak etag, otherwise 200 with Content-Type, Etag and the
file contents. -/
def serveFile (fs : FS) (ifNoneMatch : Option String) (filePath0 : String)
    (responseHeaders : List (String × String)) : Response :=
  let filePath := posixNormalize filePath0
  match fs filePath with
  | none => { status := 404, headers := [("Content-Type", "text/plain")], body := "Not found" }
  | some st =>
    let etag := mkEtag st
    if ifNoneMatch = some etag then { status := 304, headers := [], body := "" }
    else
      { status := 200,
        headers := setHeader (setHeader responseHeaders "Content-Type" (contentTypeOf filePath)) "Etag" etag,
        body := st.content }

/-- serveError (src/unnamed/part_001 lines 76-79). -/
def serveError (errorCode : Nat) (errorMessage : String) : Response :=
  { status := errorCode, headers := [("Content-Type", "text/plain")], body := errorMessage }

/-! ## URL and query-string parsing (Node url.parse(url, true)) -/

/-- Pathname of a parsed request URL: everything before the first '?',
with a '#fragment' stripped first; the empty string models a null
pathname. -/
def urlPathname (url : String) : String :=
  String.mk (splitAtFirst '?' (splitAtFirst '#' url.toList).1).1

/-- Raw query string: everything after the first '?' (before any '#'). -/
def urlQueryStr (url : String) : List Char :=
  (splitAtFirst '?' (splitAtFirst '#' url.toList).1).2

/-- querystring unescape: '+' becomes a space, percent escapes are
decoded; a value that fails to decode is kept raw (Node falls back to
the lenient unescape instead of throwing). -/
def qsUnescape (cs : List Char) : String :=
  let plussed := String.mk (cs.map (fun c => if c = '+' then ' ' else c))
  match decodeURIComponent plussed with
  | some d => d
  | none => plussed

/-- querystring.parse: split on '&', each pair at its first '=';
repeated keys simply yield repeated pairs here (Node collects them into
an array, i.e. the value is not a single string). -/
def parseQueryPairs (qs : List Char) : List (String × String) :=
  ((splitOnChar '&' qs).filter (fun p => ¬ p.isEmpty)).map fun pair =>
    let kv := splitAtFirst '=' pair
    (qsUnescape kv.1, qsUnescape kv.2)

/-- Query object of url.parse(url, true). -/
def parseQuery (url : String) : List (String × String) :=
  parseQueryPairs (urlQueryStr url)

/-- All values a query object holds for a key, in order.  A single
element corresponds to typeof query[k] === 'string'; none or several
correspond to an absent key or an array value. -/
def queryLookup (q : List (String × String)) (k : String) : List String :=
  (q.filter (fun p => p.1 = k)).map (fun p => p.2)

/-! ## Request handler (src/unnamed/part_001 lines 99-151) -/

/-- Modelled from the spec: the upstream URI.from with scheme 'file'
followed by .fsPath (vs/base/common/uri.ts, which is not under src/)
"decodes a query parameter into a filesystem path"; on the posix side
it returns the URI path unchanged, and an empty path yields the empty
(falsy) string that the handler then rejects. -/
def uriFsPath (p : String) : String := p

def devMode : Bool := true

def webMain (appRoot : String) : String :=
  pathJoin appRoot "out/vs/fxdk/browser/workbench/workbench.html"

def webMainDev (appRoot : String) : String :=
  pathJoin appRoot "out/vs/fxdk/browser/workbench/workbench-dev.html"

/-- JSON.stringify of the literal manifest object the handler answers
for /manifest.json. -/
def manifestBody : String :=
  "\x7b\"name\":\"FxDK long\",\"short_name\":\"FxDK short\",\"start_url\":\"/\",\"lang\":\"en-US\",\"display\":\"standalone\"\x7d"

/-- The pathname-relative part the static branch resolves: a leading
'/static/' is stripped, otherwise the pathname itself is used. -/
def staticRelRaw (pathname : String) : String :=
  if strStartsWith pathname "/static/" then String.mk (pathname.toList.drop 8)
  else pathname

/-- Routing outcome of the request handler body. -/
inductive RouteResult where
  | error (code : Nat) (msg : String)
  | file (filePath : String)
  | manifest
  | internalError
deriving DecidableEq

/-- Dispatch of the request handler (src/unnamed/part_001 lines
104-150), as a function of the parsed pathname and query:
/vscode-remote-resource serves the (single, string, non-empty) 'path'
query parameter, '/' serves the workbench html, /manifest.json answers
the static manifest, any other non-empty pathname is decoded,
normalized and joined onto APP_ROOT ('/static/' stripped first), an
empty pathname is 404; a decodeURIComponent failure is the thrown
exception the surrounding catch answers with 500. -/
def routeRequest (appRoot : String) (pathname : String)
    (query : List (String × String)) : RouteResult :=
  if pathname = "/vscode-remote-resource" then
    match queryLookup query "path" with
    | [filePath] =>
      let fsPath := uriFsPath filePath
      if fsPath = "" then RouteResult.error 400 "Bad Request."
      else RouteResult.file fsPath
    | _ => RouteResult.error 400 "Bad Request."
  else if pathname = "/" then
    RouteResult.file (if devMode then webMainDev appRoot else webMain appRoot)
  else if pathname = "/manifest.json" then RouteResult.manifest
  else if pathname ≠ "" then
    match (decodeURIComponent (staticRelRaw pathname)).map posixNormalize with
    | some rel => RouteResult.file (pathJoin appRoot rel)
    | none => RouteResult.internalError
  else RouteResult.error 404 "Not found."

/-- The full request handler: route, then serve the chosen file from
the file system, the manifest, or the error response. -/
def handleRequest (appRoot : String) (fs : FS) (ifNoneMatch : Option String)
    (pathname : String) (query : List (String × String)) : Response :=
  match routeRequest appRoot pathname query with
  | RouteResult.error c m => serveError c m
  | RouteResult.file fp => serveFile fs ifNoneMatch fp []
  | RouteResult.manifest =>
    { status := 200, headers := [("Content-Type", "application/json")], body := manifestBody }
  | RouteResult.internalError => serveError 500 "Internal Server Error."

/-- Whether a resolved path stays inside the application root: it is
the root itself or lies strictly below it. -/
def underRoot (root p : String) : Bool :=
  p = root || strStartsWith p (root ++ "/")

/-! ## SHA-1 and base64 (Node crypto.createHash('sha1').digest('base64')) -/

/-- Truncate to a 32-bit word. -/
def w32 (n : Nat) : Nat := n % 4294967296

/-- 32-bit left rotation. -/
def rotl32 (x n : Nat) : Nat := w32 ((x <<< n) ||| (x >>> (32 - n)))

/-- Big-endian bytes of a 32-bit word. -/
def be32 (n : Nat) : List Nat :=
  [(n >>> 24) % 256, (n >>> 16) % 256, (n >>> 8) % 256, n % 256]

/-- Big-endian bytes of a 64-bit word. -/
def be64 (n : Nat) : List Nat :=
  [(n >>> 56) % 256, (n >>> 48) % 256, (n >>> 40) % 256, (n >>> 32) % 256,
   (n >>> 24) % 256, (n >>> 16) % 256, (n >>> 8) % 256, n % 256]

/-- SHA-1 padding: append 0x80, zero bytes up to 56 mod 64, then the
bit length as a 64-bit big-endian integer. -/
def sha1Pad (msg : List Nat) : List Nat :=
  let L := msg.length
  msg ++ [128] ++ List.replicate ((120 - (L + 1) % 64) % 64) 0 ++ be64 (8 * L)

/-- Group bytes into big-endian 32-bit words. -/
def bytesToWords : List Nat → List Nat
  | a :: b :: c :: d :: rest => (a * 16777216 + b * 65536 + c * 256 + d) :: bytesToWords rest
  | _ => []

/-- Group a word list into 16-word blocks. -/
def chunkWords16 : List Nat → List (List Nat)
  | w0 :: w1 :: w2 :: w3 :: w4 :: w5 :: w6 :: w7 ::
    w8 :: w9 :: w10 :: w11 :: w12 :: w13 :: w14 :: w15 :: rest =>
    [w0, w1, w2, w3, w4, w5, w6, w7, w8, w9, w10, w11, w12, w13, w14, w15]
      :: chunkWords16 rest
  | _ => []

/-- Message schedule: extend 16 words to 80 by the rotate-1 recurrence. -/
def sha1Schedule (ws : List Nat) : Array Nat :=
  (List.range 64).foldl
    (fun w _ =>
      let i := w.size
      w.push (rotl32 ((w.getD (i - 3) 0) ^^^ (w.getD (i - 8) 0) ^^^
                      (w.getD (i - 14) 0) ^^^ (w.getD (i - 16) 0)) 1))
    ws.toArray

structure Sha1State where
  h0 : Nat
  h1 : Nat
  h2 : Nat
  h3 : Nat
  h4 : Nat

/-- One SHA-1 block compression. -/
def sha1Compress (st : Sha1State) (block : List Nat) : Sha1State :=
  let w := sha1Schedule block
  let r := (List.range 80).foldl
    (fun (t : Nat × Nat × Nat × Nat × Nat) i =>
      let a := t.1
      let b := t.2.1
      let c := t.2.2.1
      let d := t.2.2.2.1
      let e := t.2.2.2.2
      let f :=
        if i < 20 then (b &&& c) ||| ((4294967295 - b) &&& d)
        else if i < 40 then b ^^^ c ^^^ d
        else if i < 60 then (b &&& c) ||| (b &&& d) ||| (c &&& d)
        else b ^^^ c ^^^ d
      let k :=
        if i < 20 then 1518500249
        else if i < 40 then 1859775393
        else if i < 60 then 2400959708
        else 3395469782
      let temp := w32 (rotl32 a 5 + f + e + k + w.getD i 0)
      (temp, a, rotl32 b 30, c, d))
    (st.h0, st.h1, st.h2, st.h3, st.h4)
  { h0 := w32 (st.h0 + r.1), h1 := w32 (st.h1 + r.2.1), h2 := w32 (st.h2 + r.2.2.1),
    h3 := w32 (st.h3 + r.2.2.2.1), h4 := w32 (st.h4 + r.2.2.2.2) }

/-- SHA-1 digest of a byte list, as 20 bytes. -/
def sha1 (msg : List Nat) : List Nat :=
  let blocks := chunkWords16 (bytesToWords (sha1Pad msg))
  let st := blocks.foldl sha1Compress
    { h0 := 1732584193, h1 := 4023233417, h2 := 2562383102,
      h3 := 271733878, h4 := 3285377520 }
  be32 st.h0 ++ be32 st.h1 ++ be32 st.h2 ++ be32 st.h3 ++ be32 st.h4

def base64Alphabet : List Char :=
  "ABCDEFGHIJKLMNOPQRSTUVWXYZabcdefghijklmnopqrstuvwxyz0123456789+/".toList

def b64Char (n : Nat) : Char := base64Alphabet.getD n 'A'

/-- Standard base64 with '=' padding. -/
def base64Chars : List Nat → List Char
  | b0 :: b1 :: b2 :: b3 :: rest =>
    let n := b0 * 65536 + b1 * 256 + b2
    b64Char (n >>> 18) :: b64Char ((n >>> 12) % 64) :: b64Char ((n >>> 6) % 64)
      :: b64Char (n % 64) :: base64Chars (b3 :: rest)
  | [b0, b1, b2] =>
    let n := b0 * 65536 + b1 * 256 + b2
    [b64Char (n >>> 18), b64Char ((n >>> 12) % 64), b64Char ((n >>> 6) % 64), b64Char (n % 64)]
  | [b0, b1] =>
    let n := b0 * 65536 + b1 * 256
    [b64Char (n >>> 18), b64Char ((n >>> 12) % 64), b64Char ((n >>> 6) % 64), '=']
  | [b0] =>
    let n := b0 * 65536
    [b64Char (n >>> 18), b64Char ((n >>> 12) % 64), '=', '=']
  | [] => []

def base64Encode (bs : List Nat) : String := String.mk (base64Chars bs)

/-! ## WebSocket upgrade handler (src/unnamed/part_001 lines 153-189) -/

/-- The parts of the upgrade request the handler reads; none models an
absent header, and the empty url models a falsy req.url. -/
structure UpgradeRequest where
  upgradeHeader : Option String
  url : String
  secWebSocketKey : Option String
  secWebSocketExtensions : Option String
deriving DecidableEq

/-- Outcome of the upgrade handler: either the socket is closed with
the 400 status line, or the handshake header lines are written and the
socket (with the parsed query) is handed to vscode.handleWebSocket. -/
inductive UpgradeResult where
  | reject400
  | accept (responseHeaders : List String) (query : List (String × String))
      (permessageDeflate : Bool)
deriving DecidableEq

def guidWS : String := "258EAFA5-E914-47DA-95CA-C5AB0DC85B11"

/-- The reconnectionToken the handler extracts: present only when the
query holds exactly one value for the key (typeof === 'string'). -/
def reconnectionTokenOf (url : String) : Option String :=
  match queryLookup (parseQuery url) "reconnectionToken" with
  | [v] => some v
  | _ => none

/-- JS truthiness of the token variable: undefined and '' are falsy. -/
def jsTruthyStr : Option String → Bool
  | none => false
  | some s => !(s == "")

/-- The text written on an accepted handshake:
header lines joined by CRLF plus the final blank line. -/
def writtenResponse (hdrs : List String) : String :=
  String.intercalate "\r\n" hdrs ++ "\r\n\r\n"

/-- The upgrade handler: reject (end the socket with the 400 status
line) when the Upgrade header is not 'websocket' or req.url is falsy,
or when the extracted reconnectionToken is falsy; otherwise compute the
RFC6455 accept key from Sec-WebSocket-Key (JS string concatenation
turns an absent header into the text "undefined"), optionally offer
permessage-deflate, write the handshake and hand the socket over. -/
def handleUpgrade (req : UpgradeRequest) : UpgradeResult :=
  if req.upgradeHeader ≠ some "websocket" ∨ req.url = "" then UpgradeResult.reject400
  else
    let query := parseQuery req.url
    let token := reconnectionTokenOf req.url
    if jsTruthyStr token = false then UpgradeResult.reject400
    else
      let acceptKey := match req.secWebSocketKey with | some k => k | none => "undefined"
      let hash := base64Encode (sha1 (utf8Bytes (acceptKey ++ guidWS)))
      let extVal := match req.secWebSocketExtensions with | some s => s | none => "undefined"
      let pmd := listContainsSub extVal.toList "permessage-deflate".toList
      UpgradeResult.accept
        (["HTTP/1.1 101 Web Socket Protocol Handshake", "Upgrade: WebSocket",
          "Connection: Upgrade", "Sec-WebSocket-Accept: " ++ hash]
         ++ (if pmd then
              ["Sec-WebSocket-Extensions: permessage-deflate; server_max_window_bits=15"]
             else []))
        query pmd

/-! ## game-view component (src/unnamed/part_003) -/

/-- mapMouseButton (lines 171-181): swap middle and right button codes. -/
def mapMouseButton (button : Nat) : Nat :=
  if button = 2 then 1
  else if button = 1 then 2
  else button

/-- mapKey (lines 183-206): Alt/Ctrl/Shift become location-specific
virtual key codes, everything else passes through. -/
def mapKey (which location : Nat) : Nat :=
  if which = 18 then (if location = 1 then 164 else 165)
  else if which = 17 then (if location = 1 then 162 else 163)
  else if which = 16 then (if location = 1 then 160 else 161)
  else which

/-- Calls to the global bridge functions and DOM effects a handler
performs, in order. -/
inductive Effect where
  | setKeyState (key : Nat) (state : Bool)
  | setMouseButtonState (button : Nat) (state : Bool)
  | setInputCharStr (c : String)
  | setInputCharCode (n : Nat)
  | sendMouseWheel (delta : Int)
  | setRawMouseCapture (capture : Bool)
  | preventDefault
  | stopPropagation
  | exitFullscreen
  | exitPointerLock
  | requestPointerLock
deriving DecidableEq

/-- The mutable fields of the GameView instance the input handlers
touch.  The JS arrays _keysState/_buttonsState are sparse arrays of
booleans; a hole and an explicit false behave identically in every
read (falsy) and in Array.prototype.map's skipping of the releasing
branch, so they are modelled as dense boolean lists padded with
false. -/
structure GameViewState where
  mode : Nat
  keysState : List Bool
  buttonsState : List Bool
  acceptInput : Bool
  pointerLocked : Bool
  fullscreenActive : Bool
deriving DecidableEq

/-- Array read arr[i]: holes and out-of-range reads are falsy. -/
def getAt (l : List Bool) (i : Nat) : Bool := l.getD i false

/-- Array write arr[i] = v, extending with holes (read back as false)
when i is beyond the current length. -/
def setAt (l : List Bool) (i : Nat) (v : Bool) : List Bool :=
  if i < l.length then l.set i v
  else l ++ List.replicate (i - l.length) false ++ [v]

/-- The keydown event fields the handler reads. -/
structure KeyboardEvt where
  key : String
  which : Nat
  location : Nat
  shiftKey : Bool
deriving DecidableEq

/-- _handleKeydown (lines 611-649): return immediately unless input is
captured; otherwise prevent default and stop propagation, handle
Shift+Escape (exit fullscreen/pointer lock), drop repeats, record and
forward the key state, and forward a printable character or a key code
as the input character. -/
def handleKeydown (s : GameViewState) (e : KeyboardEvt) : GameViewState × List Effect :=
  if s.acceptInput = false then (s, [])
  else
    let effs := [Effect.preventDefault, Effect.stopPropagation]
    if e.key = "Escape" ∧ e.shiftKey then
      (s, effs ++ (if s.fullscreenActive then [Effect.exitFullscreen] else [])
            ++ (if s.pointerLocked then [Effect.exitPointerLock] else []))
    else
      let vk := mapKey e.which e.location
      if getAt s.keysState vk then (s, effs)
      else
        ({ s with keysState := setAt s.keysState vk true },
         effs ++ [Effect.setKeyState vk true]
              ++ (if e.key.length = 1 then [Effect.setInputCharStr e.key]
                  else if 2 < e.key.length then [Effect.setInputCharCode e.which] else []))

/-- The releasing calls the _keysState walk emits: one
setKeyState(key, false) per active index, indices counted from n. -/
def keyReleases (l : List Bool) (n : Nat) : List Effect :=
  (List.enumFrom n l).filterMap
    (fun p => if p.2 then some (Effect.setKeyState p.1 false) else none)

/-- The releasing calls the _buttonsState walk emits. -/
def buttonReleases (l : List Bool) (n : Nat) : List Effect :=
  (List.enumFrom n l).filterMap
    (fun p => if p.2 then some (Effect.setMouseButtonState p.1 false) else none)

/-- _resetStates (lines 483-499): send a NUL input character, then walk
_keysState and _buttonsState in index order, clearing each active entry
and emitting the corresponding releasing call.  The in-place write
inside Array.prototype.map only touches the index being visited, so the
walk is equivalent to mapping every entry to false while collecting the
releasing calls of the previously-active indices (enumFrom 0 is the
index walk of the sparse array). -/
def resetStates (s : GameViewState) : GameViewState × List Effect :=
  ({ s with
      keysState := s.keysState.map (fun _ => false),
      buttonsState := s.buttonsState.map (fun _ => false) },
   [Effect.setInputCharStr "\x00"]
     ++ keyReleases s.keysState 0
     ++ buttonReleases s.buttonsState 0)

/-- Number of occurrences of an effect in an effect list. -/
def countEff (e : Effect) : List Effect → Nat
  | [] => 0
  | x :: rest => (if x = e then 1 else 0) + countEff e rest

/-! ## LocalStorageCredentialsProvider
(src/src/vs/fxdk/browser/workbench/workbench.ts lines 59-85) -/

structure Credential where
  service : String
  account : String
  password : String
deriving DecidableEq

/-- The filter predicate of deletePassword: same service and account. -/
def credentialMatches (c : Credential) (service account : String) : Bool :=
  c.service == service && c.account == account

/-- deletePassword: filter out every matching credential, the found
flag set exactly when some entry matched. -/
def deletePassword (creds : List Credential) (service account : String) :
    Bool × List Credential :=
  (creds.any (fun c => credentialMatches c service account),
   creds.filter (fun c => !credentialMatches c service account))

/-- setPassword: deletePassword for the same key, then push the new
credential. -/
def setPassword (creds : List Credential) (service account password : String) :
    List Credential :=
  (deletePassword creds service account).2
    ++ [{ service := service, account := account, password := password }]

/-- At most one stored credential per (service, account) pair: no two
entries share their key. -/
def atMostOnePerKey (creds : List Credential) : Prop :=
  List.Pairwise (fun c d => ¬(c.service = d.service ∧ c.account = d.account)) creds

/-- A concrete game-view state with input capture inactive, used by
evaluation witnesses. -/
def gvInactive : GameViewState :=
  { mode := 0, keysState := [true, false], buttonsState := [true],
    acceptInput := false, pointerLocked := true, fullscreenActive := false }

/-- A concrete game-view state with input capture active and some keys
and buttons held, used by evaluation witnesses. -/
def gvActive : GameViewState :=
  { mode := 0, keysState := [false, true], buttonsState := [true],
    acceptInput := true, pointerLocked := true, fullscreenActive := false }

/-- A concrete keydown event. -/
def evtA : KeyboardEvt :=
  { key := "a", which := 65, location := 0, shiftKey := false }

/-! ## Concrete fixtures for the evaluation witnesses -/

/-- C3 counterexample: an upgrade request whose Upgrade header is
'websocket' and whose reconnectionToken is present as a single string
(the empty one) is nevertheless rejected, because the handler tests JS
truthiness (`if (!token)`) rather than string-ness: the claimed
"if and only if" fails. -/
def emptyTokenUpgradeReq : UpgradeRequest :=
  { upgradeHeader := some "websocket", url := "/?reconnectionToken=",
    secWebSocketKey := some "dGhlIHNhbXBsZSBub25jZQ==", secWebSocketExtensions := none }

/-- A one-file file system for the evaluation witnesses. -/
def stA : FileStat := { ino := 1, size := 2, mtimeMs := 3, content := "body" }

def fsA : FS := fun p => if p = "/app/a.js" then some stA else none

/-- The empty file system: every stat fails. -/
def fsEmpty : FS := fun _ => none

/-- A concrete accepted upgrade request, with the RFC6455 sample
Sec-WebSocket-Key, and the handshake it produces. -/
def acceptReq : UpgradeRequest :=
  { upgradeHeader := some "websocket", url := "/?reconnectionToken=abc",
    secWebSocketKey := some "dGhlIHNhbXBsZSBub25jZQ==", secWebSocketExtensions := none }

def acceptHdrs : List String :=
  ["HTTP/1.1 101 Web Socket Protocol Handshake", "Upgrade: WebSocket",
   "Connection: Upgrade", "Sec-WebSocket-Accept: s3pPLMBiTxaQ9kYGzzhZRbK+xOo="]

/-- Two concrete credentials with distinct keys. -/
def credsW : List Credential :=
  [{ service := "svc", account := "alice", password := "p1" },
   { service := "svc", account := "bob", password := "p2" }]

/-! ## Claim theorems -/

/-- C1: the spec asserts that a traversal attempt in a requested path
is normalized and cannot escape APP_ROOT, and serveFile's own comment
documents the same intent; but stripping '/static/' leaves a relative
path whose leading '..' segments survive path.normalize, so
path.join(APP_ROOT, ...) resolves outside the root: with APP_ROOT =
"/app", the request pathname "/static/../../etc/passwd" is served from
"/etc/passwd", which is not under "/app". -/
theorem staticTraversalEscapesRoot :
    routeRequest "/app" "/static/../../etc/passwd" [] = RouteResult.file "/etc/passwd"
      ∧ underRoot "/app" "/etc/passwd" = false := by decide

/-- C3 counterexample: the request above satisfies the claim's
acceptance conditions (Upgrade header is 'websocket', the
reconnectionToken query parameter is a single string), yet the handler
closes the socket with the 400 status line. -/
theorem emptyTokenUpgradeRejected :
    handleUpgrade emptyTokenUpgradeReq = UpgradeResult.reject400
      ∧ emptyTokenUpgradeReq.upgradeHeader = some "websocket"
      ∧ queryLookup (parseQuery emptyTokenUpgradeReq.url) "reconnectionToken" = [""] := by
  decide

/-- C3 (amended): the socket is closed with the 400 status line if and
only if the Upgrade header is not 'websocket', req.url is falsy, or the
reconnectionToken query parameter is absent, not a single string, or
the empty string; in every other case the handshake is written and the
socket is handed over. -/
theorem upgradeRejectIff (req : UpgradeRequest) :
    handleUpgrade req = UpgradeResult.reject400 ↔
      (req.upgradeHeader ≠ some "websocket" ∨ req.url = ""
        ∨ reconnectionTokenOf req.url = none
        ∨ reconnectionTokenOf req.url = some "") := by
  unfold handleUpgrade
  by_cases h1 : req.upgradeHeader ≠ some "websocket" ∨ req.url = ""
  · simp [h1]
    tauto
  · rw [if_neg h1]
    rcases htok : reconnectionTokenOf req.url with _ | t
    · simp [jsTruthyStr, h1]
    · by_cases ht : t = ""
      · subst ht
        simp [jsTruthyStr, h1]
      · simp [jsTruthyStr, ht, h1]

/-- C6: a keydown event delivered while input capture is inactive
(_acceptInput false) returns immediately: no bridge function is called,
no DOM effect (preventDefault/stopPropagation) is performed, and the
component state — in particular _keysState — is unchanged. -/
theorem keydownInactiveNoEffects (s : GameViewState) (e : KeyboardEvt)
    (h : s.acceptInput = false) :
    handleKeydown s e = (s, []) := by
  unfold handleKeydown
  rw [if_pos h]

/-- C6 witness: the theorem applied to a concrete inactive state and a
concrete keydown event. -/
theorem keydownInactiveNoEffectsWitness :
    gvInactive.acceptInput = false ∧ handleKeydown gvInactive evtA = (gvInactive, []) :=
  ⟨by decide, keydownInactiveNoEffects gvInactive evtA (by decide)⟩

/-- C7: a request for /manifest.json is answered 200 with Content-Type
application/json and exactly the JSON serialization of the fixed
manifest object, whatever the request headers (the only header the
handler ever reads is If-None-Match, quantified here) and query. -/
theorem manifestResponse (appRoot : String) (fs : FS) (ifNoneMatch : Option String)
    (query : List (String × String)) :
    handleRequest appRoot fs ifNoneMatch "/manifest.json" query
      = { status := 200, headers := [("Content-Type", "application/json")],
          body := manifestBody }
      ∧ manifestBody
        = "\x7b\"name\":\"FxDK long\",\"short_name\":\"FxDK short\",\"start_url\":\"/\",\"lang\":\"en-US\",\"display\":\"standalone\"\x7d" := by
  exact ⟨rfl, rfl⟩

/-- C9: mapMouseButton swaps button codes 1 and 2, fixes every other
code, and is therefore an involution. -/
theorem mapMouseButtonSwapInvolution :
    mapMouseButton 1 = 2 ∧ mapMouseButton 2 = 1
      ∧ (∀ b, b ≠ 1 → b ≠ 2 → mapMouseButton b = b)
      ∧ (∀ b, mapMouseButton (mapMouseButton b) = b) := by
  refine ⟨rfl, rfl, ?_, ?_⟩
  · intro b h1 h2
    simp [mapMouseButton, h1, h2]
  · intro b
    by_cases h2 : b = 2
    · subst h2; rfl
    · by_cases h1 : b = 1
      · subst h1; rfl
      · simp [mapMouseButton, h1, h2]

/-- C9 witness: the theorem applied at concrete button codes. -/
theorem mapMouseButtonSwapInvolutionWitness :
    mapMouseButton 5 = 5 ∧ mapMouseButton (mapMouseButton 1) = 1 :=
  ⟨mapMouseButtonSwapInvolution.2.2.1 5 (by decide) (by decide),
   mapMouseButtonSwapInvolution.2.2.2 1⟩

/-- Helper: updating an existing key rewrites every matching entry, so
the first match found afterwards is the new pair. -/
theorem findMapUpdate (k v : String) (hs : List (String × String))
    (h : hs.any (fun p => p.1 = k) = true) :
    (hs.map (fun p => if p.1 = k then (k, v) else p)).find? (fun p => p.1 = k)
      = some (k, v) := by
  induction hs with
  | nil => simp at h
  | cons p t ih =>
    by_cases hp : p.1 = k
    · simp [hp]
    · have h2 : t.any (fun p => p.1 = k) = true := by simpa [hp] using h
      simpa [hp] using ih h2

/-- Helper: appending a fresh key makes it the first (only) match. -/
theorem findAppendNew (k v : String) (hs : List (String × String))
    (h : hs.any (fun p => p.1 = k) = false) :
    (hs ++ [(k, v)]).find? (fun p => p.1 = k) = some (k, v) := by
  induction hs with
  | nil => simp
  | cons p t ih =>
    have hp : ¬(p.1 = k) := by
      intro hk
      simp [hk] at h
    have h2 : t.any (fun p => p.1 = k) = false := by simpa [hp] using h
    simpa [hp] using ih h2

/-- Helper: after setHeader, looking the key up yields the new value. -/
theorem mapLookupSetHeader (hs : List (String × String)) (k v : String) :
    mapLookup (setHeader hs k v) k = some v := by
  unfold mapLookup setHeader
  cases hany : hs.any (fun p => p.1 = k) with
  | true => rw [if_pos rfl, findMapUpdate k v hs hany]; rfl
  | false =>
    rw [if_neg (by simp), findAppendNew k v hs hany]
    rfl

/-- C2: when the requested file exists, serveFile answers 304 with an
empty body exactly when If-None-Match equals the weak etag
W/"ino-size-mtime" derived from the stat, and otherwise answers 200
with the file contents and that same etag in the Etag header. -/
theorem serveFileEtag (fs : FS) (inm : Option String) (fp : String)
    (hdrs : List (String × String)) (st : FileStat)
    (h : fs (posixNormalize fp) = some st) :
    (inm = some (mkEtag st) →
      serveFile fs inm fp hdrs = { status := 304, headers := [], body := "" }) ∧
    (inm ≠ some (mkEtag st) →
      (serveFile fs inm fp hdrs).status = 200
        ∧ (serveFile fs inm fp hdrs).body = st.content
        ∧ mapLookup (serveFile fs inm fp hdrs).headers "Etag" = some (mkEtag st)) := by
  simp only [serveFile, h]
  constructor
  · intro he
    rw [if_pos he]
  · intro he
    rw [if_neg he]
    exact ⟨rfl, rfl, mapLookupSetHeader _ _ _⟩

/-- C2 witness: on a concrete one-file file system, a matching
If-None-Match gets 304 with an empty body, and a missing one gets 200
with the contents and the etag header. -/
theorem serveFileEtagWitness :
    fsA (posixNormalize "/app/a.js") = some stA
      ∧ serveFile fsA (some (mkEtag stA)) "/app/a.js" []
          = { status := 304, headers := [], body := "" }
      ∧ (serveFile fsA none "/app/a.js" []).status = 200
      ∧ (serveFile fsA none "/app/a.js" []).body = stA.content
      ∧ mapLookup (serveFile fsA none "/app/a.js" []).headers "Etag" = some (mkEtag stA) := by
  refine ⟨by decide, (serveFileEtag fsA _ _ [] stA (by decide)).1 rfl, ?_⟩
  have h200 := (serveFileEtag fsA none "/app/a.js" [] stA (by decide)).2 (by decide)
  exact h200

/-- C5: the three error paths of the server.  A stat failure in
serveFile answers 404 text/plain "Not found"; a /vscode-remote-resource
request whose 'path' query parameter is absent or not a single string
answers 400 "Bad Request."; an exception thrown inside the handler — in
this embedding, decodeURIComponent failing on the static branch's
pathname — answers 500 "Internal Server Error.". -/
theorem errorResponses :
    (∀ (fs : FS) (inm : Option String) (fp : String) (hdrs : List (String × String)),
      fs (posixNormalize fp) = none →
      serveFile fs inm fp hdrs
        = { status := 404, headers := [("Content-Type", "text/plain")], body := "Not found" })
    ∧ (∀ (appRoot : String) (fs : FS) (inm : Option String)
        (query : List (String × String)),
      (queryLookup query "path").length ≠ 1 →
      handleRequest appRoot fs inm "/vscode-remote-resource" query
        = serveError 400 "Bad Request.")
    ∧ (∀ (appRoot : String) (fs : FS) (inm : Option String) (pathname : String)
        (query : List (String × String)),
      pathname ≠ "/vscode-remote-resource" → pathname ≠ "/" → pathname ≠ "/manifest.json" →
      pathname ≠ "" → decodeURIComponent (staticRelRaw pathname) = none →
      handleRequest appRoot fs inm pathname query = serveError 500 "Internal Server Error.") := by
  refine ⟨?_, ?_, ?_⟩
  · intro fs inm fp hdrs h
    simp only [serveFile, h]
  · intro appRoot fs inm query h
    have hr : routeRequest appRoot "/vscode-remote-resource" query
        = RouteResult.error 400 "Bad Request." := by
      unfold routeRequest
      rw [if_pos rfl]
      rcases hq : queryLookup query "path" with _ | ⟨v, t⟩
      · rfl
      · cases t with
        | nil => exact absurd (by rw [hq]; rfl) h
        | cons w t2 => rfl
    unfold handleRequest
    rw [hr]
  · intro appRoot fs inm pathname query h1 h2 h3 h4 h5
    have hr : routeRequest appRoot pathname query = RouteResult.internalError := by
      unfold routeRequest
      rw [if_neg h1, if_neg h2, if_neg h3, if_pos h4]
      simp only [h5]
      rfl
    unfold handleRequest
    rw [hr]

/-- C5 witness: each error path evaluated at a concrete request. -/
theorem errorResponsesWitness :
    serveFile fsEmpty none "/missing.txt" []
        = { status := 404, headers := [("Content-Type", "text/plain")], body := "Not found" }
      ∧ handleRequest "/app" fsEmpty none "/vscode-remote-resource" []
          = serveError 400 "Bad Request."
      ∧ handleRequest "/app" fsEmpty none "/%zz" []
          = serveError 500 "Internal Server Error." :=
  ⟨errorResponses.1 fsEmpty none "/missing.txt" [] rfl,
   errorResponses.2.1 "/app" fsEmpty none [] (by decide),
   errorResponses.2.2 "/app" fsEmpty none "/%zz" [] (by decide) (by decide) (by decide)
     (by decide) (by decide)⟩

/-- C4: every accepted upgrade writes a handshake whose first line is
the 101 status line and which carries a Sec-WebSocket-Accept header
equal to the base64-encoded SHA-1 of the request's Sec-WebSocket-Key
concatenated with the RFC6455 GUID. -/
theorem upgradeAcceptHandshake (req : UpgradeRequest) (hdrs : List String)
    (q : List (String × String)) (pmd : Bool) (k : String)
    (hacc : handleUpgrade req = UpgradeResult.accept hdrs q pmd)
    (hkey : req.secWebSocketKey = some k) :
    hdrs.head? = some "HTTP/1.1 101 Web Socket Protocol Handshake"
      ∧ ("Sec-WebSocket-Accept: "
          ++ base64Encode (sha1 (utf8Bytes (k ++ guidWS)))) ∈ hdrs := by
  unfold handleUpgrade at hacc
  by_cases h1 : req.upgradeHeader ≠ some "websocket" ∨ req.url = ""
  · rw [if_pos h1] at hacc
    exact absurd hacc (by simp)
  · rw [if_neg h1] at hacc
    by_cases h2 : jsTruthyStr (reconnectionTokenOf req.url) = false
    · rw [if_pos h2] at hacc
      exact absurd hacc (by simp)
    · rw [if_neg h2] at hacc
      simp only [hkey] at hacc
      rw [UpgradeResult.accept.injEq] at hacc
      obtain ⟨hh, _, _⟩ := hacc
      subst hh
      constructor
      · rfl
      · by_cases hp : listContainsSub
            (match req.secWebSocketExtensions with
             | some s => s
             | none => "undefined").toList "permessage-deflate".toList
        · simp [hp]
        · simp [hp]

/-- C4 witness: the theorem applied to the concrete accepted request;
the accept key matches the RFC6455 sample computation. -/
theorem upgradeAcceptHandshakeWitness :
    acceptHdrs.head? = some "HTTP/1.1 101 Web Socket Protocol Handshake"
      ∧ ("Sec-WebSocket-Accept: "
          ++ base64Encode (sha1 (utf8Bytes ("dGhlIHNhbXBsZSBub25jZQ==" ++ guidWS))))
          ∈ acceptHdrs :=
  upgradeAcceptHandshake acceptReq acceptHdrs [("reconnectionToken", "abc")] false
    "dGhlIHNhbXBsZSBub25jZQ==" (by decide) rfl

/-- Helper: every entry of a constant-false map reads false. -/
theorem getDMapConstFalse (l : List Bool) (i : Nat) :
    (l.map (fun _ => false)).getD i false = false := by
  induction l generalizing i with
  | nil => simp
  | cons b t ih =>
    cases i with
    | zero => rfl
    | succ j => simp [ih j]

/-- Helper: countEff distributes over append. -/
theorem countEffAppend (e : Effect) (l1 l2 : List Effect) :
    countEff e (l1 ++ l2) = countEff e l1 + countEff e l2 := by
  induction l1 with
  | nil => simp [countEff]
  | cons x t ih =>
    simp [countEff, ih]
    omega

/-- Helper: the key walk emits exactly one release for an active index
and none for an inactive or out-of-range one. -/
theorem countKeyReleases (l : List Bool) : ∀ n i : Nat,
    countEff (Effect.setKeyState i false) (keyReleases l n)
      = if n ≤ i ∧ getAt l (i - n) = true then 1 else 0 := by
  induction l with
  | nil =>
    intro n i
    simp [keyReleases, countEff, getAt]
  | cons b t ih =>
    intro n i
    have hrw : keyReleases (b :: t) n
        = (if b then [Effect.setKeyState n false] else []) ++ keyReleases t (n + 1) := by
      cases b <;> simp [keyReleases, List.enumFrom, List.filterMap_cons]
    rw [hrw, countEffAppend, ih (n + 1) i]
    by_cases heq : i = n
    · subst heq
      cases hb : b
      · simp [countEff, getAt, hb]
      · simp [countEff, getAt, hb]
    · have hhead : countEff (Effect.setKeyState i false)
          (if b then [Effect.setKeyState n false] else []) = 0 := by
        cases b
        · simp [countEff]
        · simp [countEff]
          intro hc
          exact absurd hc.symm heq
      rw [hhead]
      by_cases hle : n + 1 ≤ i
      · have h1 : n ≤ i := by omega
        have h2 : i - n = (i - (n + 1)) + 1 := by omega
        rw [h2]
        simp [getAt, hle, h1]
      · have h1 : ¬ n ≤ i := by omega
        simp [hle, h1]

/-- Helper: the button walk, symmetric to countKeyReleases. -/
theorem countButtonReleases (l : List Bool) : ∀ n i : Nat,
    countEff (Effect.setMouseButtonState i false) (buttonReleases l n)
      = if n ≤ i ∧ getAt l (i - n) = true then 1 else 0 := by
  induction l with
  | nil =>
    intro n i
    simp [buttonReleases, countEff, getAt]
  | cons b t ih =>
    intro n i
    have hrw : buttonReleases (b :: t) n
        = (if b then [Effect.setMouseButtonState n false] else []) ++ buttonReleases t (n + 1) := by
      cases b <;> simp [buttonReleases, List.enumFrom, List.filterMap_cons]
    rw [hrw, countEffAppend, ih (n + 1) i]
    by_cases heq : i = n
    · subst heq
      cases hb : b
      · simp [countEff, getAt, hb]
      · simp [countEff, getAt, hb]
    · have hhead : countEff (Effect.setMouseButtonState i false)
          (if b then [Effect.setMouseButtonState n false] else []) = 0 := by
        cases b
        · simp [countEff]
        · simp [countEff]
          intro hc
          exact absurd hc.symm heq
      rw [hhead]
      by_cases hle : n + 1 ≤ i
      · have h1 : n ≤ i := by omega
        have h2 : i - n = (i - (n + 1)) + 1 := by omega
        rw [h2]
        simp [getAt, hle, h1]
      · have h1 : ¬ n ≤ i := by omega
        simp [hle, h1]

/-- Helper: effects other than key releases never occur in the key
walk. -/
theorem countKeyReleasesNe (e : Effect) (he : ∀ a, Effect.setKeyState a false ≠ e)
    (l : List Bool) : ∀ n : Nat, countEff e (keyReleases l n) = 0 := by
  induction l with
  | nil =>
    intro n
    simp [keyReleases, countEff]
  | cons b t ih =>
    intro n
    have hrw : keyReleases (b :: t) n
        = (if b then [Effect.setKeyState n false] else []) ++ keyReleases t (n + 1) := by
      cases b <;> simp [keyReleases, List.enumFrom, List.filterMap_cons]
    rw [hrw, countEffAppend, ih (n + 1)]
    cases b
    · simp [countEff]
    · simp [countEff, he n]

/-- Helper: effects other than button releases never occur in the
button walk. -/
theorem countButtonReleasesNe (e : Effect)
    (he : ∀ a, Effect.setMouseButtonState a false ≠ e)
    (l : List Bool) : ∀ n : Nat, countEff e (buttonReleases l n) = 0 := by
  induction l with
  | nil =>
    intro n
    simp [buttonReleases, countEff]
  | cons b t ih =>
    intro n
    have hrw : buttonReleases (b :: t) n
        = (if b then [Effect.setMouseButtonState n false] else []) ++ buttonReleases t (n + 1) := by
      cases b <;> simp [buttonReleases, List.enumFrom, List.filterMap_cons]
    rw [hrw, countEffAppend, ih (n + 1)]
    cases b
    · simp [countEff]
    · simp [countEff, he n]

/-- C10: after _resetStates, every keys/buttons entry reads false; the
effect trace contains exactly one setKeyState(key, false) per key that
was active (none for inactive ones), exactly one
setMouseButtonState(button, false) per active button, and exactly one
setInputChar NUL call. -/
theorem resetStatesReleases (s : GameViewState) (i : Nat) :
    getAt (resetStates s).1.keysState i = false
      ∧ getAt (resetStates s).1.buttonsState i = false
      ∧ countEff (Effect.setKeyState i false) (resetStates s).2
          = (if getAt s.keysState i then 1 else 0)
      ∧ countEff (Effect.setMouseButtonState i false) (resetStates s).2
          = (if getAt s.buttonsState i then 1 else 0)
      ∧ countEff (Effect.setInputCharStr "\x00") (resetStates s).2 = 1 := by
  refine ⟨getDMapConstFalse s.keysState i, getDMapConstFalse s.buttonsState i, ?_, ?_, ?_⟩
  · show countEff (Effect.setKeyState i false)
        ([Effect.setInputCharStr "\x00"]
          ++ keyReleases s.keysState 0 ++ buttonReleases s.buttonsState 0) = _
    rw [countEffAppend, countEffAppend, countKeyReleases s.keysState 0 i,
        countButtonReleasesNe _ (by intro a; simp) s.buttonsState 0]
    simp [countEff, getAt]
  · show countEff (Effect.setMouseButtonState i false)
        ([Effect.setInputCharStr "\x00"]
          ++ keyReleases s.keysState 0 ++ buttonReleases s.buttonsState 0) = _
    rw [countEffAppend, countEffAppend, countButtonReleases s.buttonsState 0 i,
        countKeyReleasesNe _ (by intro a; simp) s.keysState 0]
    simp [countEff, getAt]
  · show countEff (Effect.setInputCharStr "\x00")
        ([Effect.setInputCharStr "\x00"]
          ++ keyReleases s.keysState 0 ++ buttonReleases s.buttonsState 0) = 1
    rw [countEffAppend, countEffAppend,
        countKeyReleasesNe _ (by intro a; simp) s.keysState 0,
        countButtonReleasesNe _ (by intro a; simp) s.buttonsState 0]
    simp [countEff]

/-- C8: setPassword preserves the at-most-one-credential-per-key
invariant (it removes every same-key entry before pushing the new one);
deletePassword returns true exactly when a matching credential was
stored, and its result is the original list with every matching entry
removed and every other entry untouched. -/
theorem credentialsUniqueKey (creds : List Credential) (service account password : String) :
    (atMostOnePerKey creds → atMostOnePerKey (setPassword creds service account password))
      ∧ ((deletePassword creds service account).1 = true
          ↔ ∃ c ∈ creds, credentialMatches c service account = true)
      ∧ (deletePassword creds service account).2
          = creds.filter (fun c => !credentialMatches c service account) := by
  refine ⟨?_, ?_, rfl⟩
  · intro h
    unfold atMostOnePerKey setPassword deletePassword
    rw [List.pairwise_append]
    refine ⟨List.Pairwise.sublist (List.filter_sublist creds) h, by simp, ?_⟩
    intro x hx y hy
    rw [List.mem_singleton] at hy
    subst hy
    rw [List.mem_filter] at hx
    have hnm : credentialMatches x service account = false := by
      rcases hx with ⟨hx1, hx2⟩
      simp only [Bool.not_eq_eq_eq_not, Bool.not_true] at hx2
      exact hx2
    intro hcon
    have hs : x.service = service := hcon.1
    have ha : x.account = account := hcon.2
    simp [credentialMatches, hs, ha] at hnm
  · exact List.any_eq_true

/-- C8 witness: the theorem applied to the concrete two-entry store. -/
theorem credentialsUniqueKeyWitness :
    atMostOnePerKey (setPassword credsW "svc" "alice" "p3")
      ∧ ((deletePassword credsW "svc" "alice").1 = true
          ↔ ∃ c ∈ credsW, credentialMatches c "svc" "alice" = true)
      ∧ (deletePassword credsW "svc" "alice").2
          = credsW.filter (fun c => !credentialMatches c "svc" "alice") :=
  ⟨(credentialsUniqueKey credsW "svc" "alice" "p3").1
     (by unfold atMostOnePerKey credsW; simp),
   (credentialsUniqueKey credsW "svc" "alice" "p3").2.1,
   (credentialsUniqueKey credsW "svc" "alice" "p3").2.2⟩
